import Mathlib

set_option maxHeartbeats 4000000

/-!
Verification development for the stock-tracker transaction ledger and
CSV-ingestion engine (backend/app/services/import_service.py and
backend/app/services/portfolio_service.py).

Embedding conventions:
* Python `Decimal` values are modelled as exact rationals (`ℚ`); the code
  works with small fixed-point amounts, and every claim under study is about
  exact arithmetic identities of the accounting rules.
* Python `int` is modelled as `Int`, dates as `Nat` encoded `yyyymmdd`
  (order-faithful), strings as Lean `String` / `List Char`.
* The SQLAlchemy `AsyncSession` is modelled as a pair of database states:
  the last committed state and the current in-session state.  `db.add` and
  attribute mutation update the current state, `commit` copies current to
  committed, `rollback` copies committed back over current.  `flush` makes
  pending rows visible to queries of the same session, which the `current`
  state already provides.
-/

deriving instance DecidableEq for Except

namespace StockTracker

/-! ## Character and string helpers (Python `str` semantics) -/

/-- Python whitespace test used by `str.strip` and the `\s` regex class. -/
def isPySpace (c : Char) : Bool := c.isWhitespace

/-- Python `str.strip`: drop leading and trailing whitespace. -/
def pyStrip (l : List Char) : List Char :=
  ((l.dropWhile isPySpace).reverse.dropWhile isPySpace).reverse

/-- Python `str.strip` on `String`s. -/
def pyStripS (s : String) : String := String.mk (pyStrip s.toList)

def isUpperLetter (c : Char) : Bool := decide ('A' ≤ c) && decide (c ≤ 'Z')

def isLowerLetter (c : Char) : Bool := decide ('a' ≤ c) && decide (c ≤ 'z')

def isDigitChar (c : Char) : Bool := decide ('0' ≤ c) && decide (c ≤ '9')

/-- Lowercase mapping for the uppercase accented letters appearing in
the import tables; Python `str.lower` maps them to their accented
lowercase forms before the accent-folding table applies. -/
def UPPER_ACCENTS : List (Char × Char) :=
  [('Á','á'),('À','à'),('Ã','ã'),('Â','â'),('Ä','ä'),
   ('É','é'),('È','è'),('Ê','ê'),('Ë','ë'),
   ('Í','í'),('Ì','ì'),('Î','î'),('Ï','ï'),
   ('Ó','ó'),('Ò','ò'),('Õ','õ'),('Ô','ô'),('Ö','ö'),
   ('Ú','ú'),('Ù','ù'),('Û','û'),('Ü','ü'),
   ('Ç','ç'),('Ñ','ñ')]

/-- The ASCII case table. -/
def ASCII_CASES : List (Char × Char) :=
  [('a','A'),('b','B'),('c','C'),('d','D'),('e','E'),('f','F'),('g','G'),
   ('h','H'),('i','I'),('j','J'),('k','K'),('l','L'),('m','M'),('n','N'),
   ('o','O'),('p','P'),('q','Q'),('r','R'),('s','S'),('t','T'),('u','U'),
   ('v','V'),('w','W'),('x','X'),('y','Y'),('z','Z')]

/-- Python `str.lower` restricted to ASCII letters plus the accented letters
relevant to the import synonym tables. -/
def pyLower (c : Char) : Char :=
  match (ASCII_CASES.map (fun p => (p.2, p.1))).lookup c with
  | some l => l
  | none => ((UPPER_ACCENTS.lookup c).getD c)

/-- Python `str.upper` restricted to ASCII letters (tickers are ASCII). -/
def pyUpper (c : Char) : Char := ((ASCII_CASES.lookup c).getD c)

/-- The accent-replacement table of `normalize_string`
(import_service.py lines 106-113). -/
def ACCENTS : List (Char × Char) :=
  [('á','a'),('à','a'),('ã','a'),('â','a'),('ä','a'),
   ('é','e'),('è','e'),('ê','e'),('ë','e'),
   ('í','i'),('ì','i'),('î','i'),('ï','i'),
   ('ó','o'),('ò','o'),('õ','o'),('ô','o'),('ö','o'),
   ('ú','u'),('ù','u'),('û','u'),('ü','u'),
   ('ç','c'),('ñ','n')]

def accentFold (c : Char) : Char := ((ACCENTS.lookup c).getD c)

/-- `normalize_string` (import_service.py lines 100-116): lowercase, strip,
remove accents.  Each table entry is a single character replaced by a single
character and no replacement character is itself replaced, so the sequential
`str.replace` loop is a per-character map. -/
def normalize_string (s : String) : List Char :=
  (pyStrip (s.toList.map pyLower)).map accentFold

/-- Python substring containment `a in b`: `a` is a contiguous segment of
`b` (the empty string is contained in every string, as in Python). -/
def isSubstrOf (a : List Char) : List Char → Bool
  | [] => a.isEmpty
  | c :: rest => a.isPrefixOf (c :: rest) || isSubstrOf a rest

/-- Digit-string value. -/
def natVal (cs : List Char) : ℕ :=
  cs.foldl (fun acc c => 10 * acc + (c.toNat - '0'.toNat)) 0

/-- Kernel-computable embedding of `ℤ` into `ℚ` (definitionally equal to
the cast, stated by `qInt_eq_cast`); used inside executable definitions so
that concrete runs reduce by `decide`. -/
def qInt (n : ℤ) : ℚ := Rat.ofInt n

/-- Kernel-computable embedding of `ℕ` into `ℚ`. -/
def qNat (n : ℕ) : ℚ := Rat.ofInt (Int.ofNat n)

@[simp] theorem qInt_eq_cast (n : ℤ) : qInt n = (n : ℚ) := Rat.ofInt_eq_cast n

@[simp] theorem qNat_eq_cast (n : ℕ) : qNat n = (n : ℚ) := by
  simp [qNat, Rat.ofInt_eq_cast]

/-- Kernel-computable addition on `ℚ` (the library operation is opaque to
definitional reduction; `qAdd_eq` identifies the two). -/
def qAdd (a b : ℚ) : ℚ := mkRat (a.num * b.den + b.num * a.den) (a.den * b.den)

/-- Kernel-computable multiplication on `ℚ`. -/
def qMul (a b : ℚ) : ℚ := mkRat (a.num * b.num) (a.den * b.den)

/-- Kernel-computable division on `ℚ` (zero divisor yields zero, as
division by zero does on `ℚ`). -/
def qDiv (a b : ℚ) : ℚ := Rat.divInt (a.num * b.den) (a.den * b.num)

@[simp] theorem qAdd_eq (a b : ℚ) : qAdd a b = a + b := by
  have ha : ((a.den : ℚ)) ≠ 0 := by exact_mod_cast a.den_nz
  have hb : ((b.den : ℚ)) ≠ 0 := by exact_mod_cast b.den_nz
  rw [qAdd, Rat.mkRat_eq_div]
  push_cast
  conv_rhs => rw [← Rat.num_div_den a, ← Rat.num_div_den b]
  rw [div_add_div _ _ ha hb]
  ring

@[simp] theorem qMul_eq (a b : ℚ) : qMul a b = a * b := by
  rw [qMul, Rat.mkRat_eq_div]
  push_cast
  conv_rhs => rw [← Rat.num_div_den a, ← Rat.num_div_den b]
  rw [div_mul_div_comm]

@[simp] theorem qDiv_eq (a b : ℚ) : qDiv a b = a / b := by
  have hA : (a : ℚ) * (a.den : ℚ) = (a.num : ℚ) := by
    have ha : ((a.den : ℚ)) ≠ 0 := by exact_mod_cast a.den_nz
    have h := div_mul_cancel₀ ((a.num : ℚ)) ha
    rwa [Rat.num_div_den a] at h
  rcases eq_or_ne b 0 with hb | hb
  · subst hb
    simp [qDiv, Rat.divInt_eq_div]
  · have hB : (b : ℚ) * (b.den : ℚ) = (b.num : ℚ) := by
      have hbd : ((b.den : ℚ)) ≠ 0 := by exact_mod_cast b.den_nz
      have h := div_mul_cancel₀ ((b.num : ℚ)) hbd
      rwa [Rat.num_div_den b] at h
    have hbn : (b.num : ℚ) ≠ 0 := by exact_mod_cast Rat.num_ne_zero.mpr hb
    have had : ((a.den : ℚ)) ≠ 0 := by exact_mod_cast a.den_nz
    rw [qDiv, Rat.divInt_eq_div]
    push_cast
    rw [div_eq_div_iff (mul_ne_zero had hbn) hb, ← hA, ← hB]
    ring

/-! ## parse_ticker (import_service.py lines 177-204) -/

/-- Full match of the ticker regex `^[A-Z]{4}\d{1,2}$`. -/
def fullTickerMatch : List Char → Bool
  | [a, b, c, d, e] =>
      isUpperLetter a && isUpperLetter b && isUpperLetter c && isUpperLetter d &&
      isDigitChar e
  | [a, b, c, d, e, f] =>
      isUpperLetter a && isUpperLetter b && isUpperLetter c && isUpperLetter d &&
      isDigitChar e && isDigitChar f
  | _ => false

/-- Attempt of the regex `[A-Z]{4}\d{1,2}` anchored at the head of the list,
greedy in the digit count, as `re.search` matches at one position. -/
def matchTickerAt : List Char → Option (List Char)
  | a :: b :: c :: d :: e :: rest =>
      if isUpperLetter a && isUpperLetter b && isUpperLetter c && isUpperLetter d &&
         isDigitChar e then
        match rest with
        | f :: _ => if isDigitChar f then some [a, b, c, d, e, f] else some [a, b, c, d, e]
        | [] => some [a, b, c, d, e]
      else none
  | _ => none

/-- The `re.search` call with the group `([A-Z]{4}\d{1,2})`: leftmost match. -/
def searchTicker : List Char → Option (List Char)
  | [] => none
  | c :: rest =>
      match matchTickerAt (c :: rest) with
      | some m => some m
      | none => searchTicker rest

/-- The normalisation pipeline of `parse_ticker`: strip and uppercase, take
the first whitespace-separated token when a space is present, strip a
trailing `F` from values longer than 5 characters. -/
def normTicker (value : String) : List Char :=
  let v1 := (pyStrip value.toList).map pyUpper
  let v2 := if v1.contains ' ' then v1.takeWhile (fun c => !isPySpace c) else v1
  if v2.getLast? = some 'F' ∧ 5 < v2.length then v2.dropLast else v2

/-- `parse_ticker` (import_service.py lines 177-204).  Note the final
fallthrough: when neither the full-match nor the extraction succeeds the
function returns the normalised value itself, not an error. -/
def parse_ticker (value : String) : String :=
  if value = "" then ""
  else
    let v := normTicker value
    if fullTickerMatch v then String.mk v
    else
      match searchTicker v with
      | some m => String.mk m
      | none => String.mk v

/-! ## parse_type (import_service.py lines 94-97 and 207-219) -/

/-- `TYPE_MAPPINGS` (import_service.py lines 94-97), in dict insertion
order: buy synonyms are tried before sell synonyms. -/
def TYPE_MAPPINGS : List (String × List String) :=
  [("buy", ["c", "compra", "buy", "b", "aquisição", "aquisicao", "entrada",
            "credito", "crédito", "+"]),
   ("sell", ["v", "venda", "sell", "s", "alienação", "alienacao", "saída",
             "saida", "débito", "debito", "-"])]

/-- Inner loop of `parse_type`: first transaction type whose keyword list has
a keyword contained in the normalised value or containing it. -/
def matchKeywords (normalized : List Char) : List (String × List String) → Option String
  | [] => none
  | (trans_type, keywords) :: rest =>
      if keywords.any (fun kw =>
          isSubstrOf kw.toList normalized || isSubstrOf normalized kw.toList) then
        some trans_type
      else matchKeywords normalized rest

/-- `parse_type` (import_service.py lines 207-219). -/
def parse_type (value : String) : Option String :=
  if value = "" then none
  else matchKeywords (normalize_string value) TYPE_MAPPINGS

/-! ## parse_quantity (import_service.py lines 222-237) -/

/-- `parse_quantity`: strip, remove thousands separators and signs, parse as
a number, reject zero.  The `int(float(value))` coercion is modelled on the
plain digit strings that remain after separator removal; exotic float
notations (exponents, infinities) are out of scope of every claim. -/
def parse_quantity (value : String) : Option Int :=
  if value = "" then none
  else
    let v := pyStrip value.toList
    let v := v.filter (fun c => !(c == '.' || c == ',' || c == ' '))
    let v := v.filter (fun c => !(c == '+' || c == '-'))
    if v ≠ [] ∧ v.all isDigitChar then
      let qty : ℕ := natVal v
      if qty = 0 then none else some (Int.ofNat qty)
    else none

/-! ## parse_price (import_service.py lines 240-264) -/

/-- Model of `Decimal(value)` on the fixed-point fragment the importer
feeds it: optional sign, an integer part and at most one decimal point
with a fractional part, at least one digit overall.  Scientific notation
and the special values accepted by `Decimal` never reach this call and are
out of scope of every claim. -/
def decimalOfChars (cs : List Char) : Option ℚ :=
  let signed : ℚ × List Char :=
    match cs with
    | '+' :: r => (1, r)
    | '-' :: r => (-1, r)
    | r => (1, r)
  let sgn := signed.1
  let rest := signed.2
  let intPart := rest.takeWhile isDigitChar
  let rest2 := rest.drop intPart.length
  match rest2 with
  | [] => if intPart = [] then none else some (qMul sgn (qNat (natVal intPart)))
  | '.' :: fr =>
      if fr.all isDigitChar ∧ (intPart ≠ [] ∨ fr ≠ []) then
        some (qMul sgn
          (qAdd (qNat (natVal intPart)) (qDiv (qNat (natVal fr)) (qNat (10 ^ fr.length)))))
      else none
  | _ => none

/-- The `re.sub` deletion of the characters `R`, `$` and whitespace after
`value.strip()` (import_service.py lines 245-247). -/
def stripCurrency (s : String) : List Char :=
  (pyStrip s.toList).filter (fun c => !(c == 'R' || c == '$' || isPySpace c))

/-- Python `str.rfind`: index of the last occurrence, `-1` when absent. -/
def pyRfind (cs : List Char) (c : Char) : Int :=
  if cs.contains c then (cs.length : Int) - 1 - (cs.reverse.indexOf c : Int) else -1

/-- `parse_price` (import_service.py lines 240-264): strip currency symbols,
disambiguate Brazilian versus US thousands/decimal separators by which
separator occurs last, parse as a decimal, reject non-positive values. -/
def parse_price (value : String) : Option ℚ :=
  if value = "" then none
  else
    let v := stripCurrency value
    let v2 :=
      if v.contains ',' && v.contains '.' then
        if pyRfind v ',' > pyRfind v '.' then
          (v.filter (fun c => !(c == '.'))).map (fun c => if c == ',' then '.' else c)
        else v.filter (fun c => !(c == ','))
      else if v.contains ',' then v.map (fun c => if c == ',' then '.' else c)
      else v
    match decimalOfChars v2 with
    | none => none
    | some price => if 0 < price then some |price| else none

/-! ## parse_date (import_service.py lines 267-295) -/

inductive DateOrder | dmy | ymd | mdy
deriving DecidableEq

structure DateFmt where
  sep : Char
  ord : DateOrder
  twoDigitYear : Bool
deriving DecidableEq

/-- The `formats` list of `parse_date` (import_service.py lines 275-284), in
order: `%d/%m/%Y`, `%d-%m-%Y`, `%Y-%m-%d`, `%d/%m/%y`, `%d-%m-%y`,
`%Y/%m/%d`, `%d.%m.%Y`, `%m/%d/%Y`. -/
def DATE_FORMATS : List DateFmt :=
  [⟨'/', .dmy, false⟩, ⟨'-', .dmy, false⟩, ⟨'-', .ymd, false⟩,
   ⟨'/', .dmy, true⟩, ⟨'-', .dmy, true⟩, ⟨'/', .ymd, false⟩,
   ⟨'.', .dmy, false⟩, ⟨'/', .mdy, false⟩]

def splitOnChar (sep : Char) (cs : List Char) : List (List Char) :=
  cs.foldr
    (fun c acc =>
      match acc with
      | [] => if c == sep then [[], []] else [[c]]
      | g :: gs => if c == sep then [] :: g :: gs else (c :: g) :: gs)
    [[]]

def isLeapYear (y : ℕ) : Bool := y % 4 == 0 && (y % 100 != 0 || y % 400 == 0)

def daysInMonth (y m : ℕ) : ℕ :=
  if m = 2 then (if isLeapYear y then 29 else 28)
  else if m = 4 ∨ m = 6 ∨ m = 9 ∨ m = 11 then 30
  else 31

/-- A day or month component: `strptime`'s `%d`/`%m` accept one or two
digits with the range built into the pattern. -/
def dayMonthComp (cs : List Char) (hi : ℕ) : Option ℕ :=
  if (cs.length = 1 ∨ cs.length = 2) ∧ cs.all isDigitChar then
    let n := natVal cs
    if 1 ≤ n ∧ n ≤ hi then some n else none
  else none

/-- A year component: `%Y` requires exactly four digits, `%y` exactly two
digits mapped to 2000-2068 / 1969-1999 as in CPython. -/
def yearComp (cs : List Char) (twoDigit : Bool) : Option ℕ :=
  if twoDigit then
    if cs.length = 2 ∧ cs.all isDigitChar then
      let n := natVal cs
      some (if n ≤ 68 then n + 2000 else n + 1900)
    else none
  else if cs.length = 4 ∧ cs.all isDigitChar then some (natVal cs) else none

/-- One `datetime.strptime` attempt: split on the separator, read the three
components in the order of the format, and validate the calendar date exactly as
the `datetime` constructor does.  Dates are encoded as `y*10000+m*100+d`. -/
def tryFormat (fmt : DateFmt) (v : List Char) : Option ℕ :=
  match splitOnChar fmt.sep v with
  | [a, b, c] =>
      let comps : Option (ℕ × ℕ × ℕ) :=
        match fmt.ord with
        | .dmy =>
            match dayMonthComp a 31, dayMonthComp b 12, yearComp c fmt.twoDigitYear with
            | some d, some m, some y => some (y, m, d)
            | _, _, _ => none
        | .ymd =>
            match yearComp a fmt.twoDigitYear, dayMonthComp b 12, dayMonthComp c 31 with
            | some y, some m, some d => some (y, m, d)
            | _, _, _ => none
        | .mdy =>
            match dayMonthComp a 12, dayMonthComp b 31, yearComp c fmt.twoDigitYear with
            | some m, some d, some y => some (y, m, d)
            | _, _, _ => none
      match comps with
      | some (y, m, d) => if d ≤ daysInMonth y m then some (y * 10000 + m * 100 + d) else none
      | none => none
  | _ => none

/-- The format loop of `parse_date`: the first format that parses is
accepted only if the year lies between 1990 and 2100; otherwise the loop
continues with the next format. -/
def firstValidDate (v : List Char) : List DateFmt → Option ℕ
  | [] => none
  | fmt :: rest =>
      match tryFormat fmt v with
      | some d => if 1990 ≤ d / 10000 ∧ d / 10000 ≤ 2100 then some d else firstValidDate v rest
      | none => firstValidDate v rest

/-- `parse_date` (import_service.py lines 267-295). -/
def parse_date (value : String) : Option ℕ :=
  if value = "" then none
  else firstValidDate (pyStrip value.toList) DATE_FORMATS

/-- `parse_fees` (import_service.py lines 298-304): empty or unparsable
input yields zero; `parse_price` never returns a zero price, so the Python
falsy test on its result is a `none` test. -/
def parse_fees (value : String) : ℚ :=
  if value = "" then 0
  else
    match parse_price value with
    | some price => price
    | none => 0

/-! ## Format detection (import_service.py lines 62-91 and 119-174) -/

/-- `COLUMN_MAPPINGS` (import_service.py lines 62-91), as an ordered list of
(format name, ordered field-to-synonyms mapping) mirroring dict insertion
order. -/
def COLUMN_MAPPINGS : List (String × List (String × List String)) :=
  [("b3_area_investidor",
    [("ticker", ["código negociação", "codigo negociacao", "ticker", "código",
                 "codigo", "ativo", "papel"]),
     ("type", ["tipo movimentação", "tipo movimentacao", "movimentação",
               "movimentacao", "tipo", "c/v", "operação", "operacao"]),
     ("quantity", ["quantidade", "qtd", "qtde", "qt"]),
     ("price", ["preço", "preco", "preço unitário", "preco unitario",
                "valor unitário", "valor unitario", "preço/ajuste", "preco/ajuste"]),
     ("date", ["data", "data do negócio", "data do negocio", "data negócio",
               "data negocio", "data pregão", "data pregao", "data liquidação",
               "data liquidacao"]),
     ("fees", ["taxas", "taxa", "corretagem", "emolumentos", "custos"])]),
   ("corretora",
    [("ticker", ["especificação do título", "especificacao do titulo", "título",
                 "titulo", "papel", "ativo", "código", "codigo"]),
     ("type", ["c/v", "compra/venda", "tipo", "natureza", "operação", "operacao"]),
     ("quantity", ["quantidade", "qtd", "qtde", "qt", "q"]),
     ("price", ["preço/ajuste", "preco/ajuste", "preço", "preco", "valor"]),
     ("date", ["data pregão", "data pregao", "data", "dt pregão", "dt pregao"]),
     ("fees", ["taxa operacional", "corretagem", "emolumentos", "taxas"])]),
   ("generic",
    [("ticker", ["ticker", "ativo", "papel", "código", "codigo", "symbol",
                 "stock", "acao", "ação"]),
     ("type", ["tipo", "type", "operação", "operacao", "c/v", "compra/venda",
               "operation", "side"]),
     ("quantity", ["quantidade", "qtd", "qtde", "quantity", "qty", "qt", "q"]),
     ("price", ["preço", "preco", "price", "valor", "value", "preço unitário",
                "preco unitario"]),
     ("date", ["data", "date", "data operação", "data operacao", "dt"]),
     ("fees", ["taxas", "taxa", "fees", "fee", "corretagem", "custos"]),
     ("notes", ["observações", "observacoes", "notas", "notes", "obs"])])]

/-- Synonym-major search of `find_column`: the first synonym that matches a
header (by substring containment in either direction) yields the index of
the first header it matches. -/
def findColumnName (normalized_headers : List (List Char)) : List String → Option ℕ
  | [] => none
  | name :: rest =>
      let normalized_name := normalize_string name
      match normalized_headers.findIdx? (fun header =>
          isSubstrOf normalized_name header || isSubstrOf header normalized_name) with
      | some i => some i
      | none => findColumnName normalized_headers rest

/-- `find_column` (import_service.py lines 131-140). -/
def find_column (headers : List String) (possible_names : List String) : Option ℕ :=
  findColumnName (headers.map normalize_string) possible_names

/-- `detect_format_and_map_columns` (import_service.py lines 143-174): score
each format by resolved fields, require the five mandatory roles, keep the
strictly best score (ties keep the earlier format); format names are
modelled by the `ImportFormat` value strings, with `corretora` reported as
`clear` as in the source. -/
def detect_format_and_map_columns (headers : List String) : String × List (String × ℕ) :=
  let step := fun (acc : String × List (String × ℕ) × ℕ)
                  (fm : String × List (String × List String)) =>
    let best_format := acc.1
    let column_map := acc.2.1
    let best_score := acc.2.2
    let temp_map := fm.2.foldl
      (fun m fieldNames =>
        match find_column headers fieldNames.2 with
        | some idx => m ++ [(fieldNames.1, idx)]
        | none => m) []
    let score := temp_map.length
    let required := ["ticker", "type", "quantity", "price", "date"]
    let has_required := required.all (fun f => (temp_map.lookup f).isSome)
    if has_required ∧ score > best_score then
      (if fm.1 = "b3_area_investidor" then "b3_area_investidor"
       else if fm.1 = "corretora" then "clear"
       else "generic",
       temp_map, score)
    else (best_format, column_map, best_score)
  let r := COLUMN_MAPPINGS.foldl step ("generic", [], 0)
  (r.1, r.2.1)

/-! ## parse_row (import_service.py lines 29-39 and 307-360) -/

/-- `ParsedTransaction` (import_service.py lines 29-39); the `raw_row` debug
field is not carried. -/
structure ParsedTransaction where
  ticker : String
  type : String
  quantity : Int
  price : ℚ
  date : ℕ
  fees : ℚ
  notes : Option String
deriving DecidableEq

/-- The `get_value` closure of `parse_row`: fetch the mapped cell and strip
it, with the empty string for unmapped roles, out-of-range indices and
falsy cells. -/
def get_value (values : List String) (column_map : List (String × ℕ)) (field : String) :
    String :=
  match column_map.lookup field with
  | some idx => pyStripS (values.getD idx "")
  | none => ""

/-- `parse_row` (import_service.py lines 307-360), with the row-scoped
error messages of the source. -/
def parse_row (row : List String) (column_map : List (String × ℕ)) :
    Except String ParsedTransaction :=
  let gv := get_value row column_map
  let ticker := parse_ticker (gv "ticker")
  if ticker = "" then .error "Ticker não encontrado ou inválido"
  else
    match parse_type (gv "type") with
    | none => .error ("Tipo de operação não reconhecido para " ++ ticker)
    | some trans_type =>
      match parse_quantity (gv "quantity") with
      | none => .error ("Quantidade inválida para " ++ ticker)
      | some quantity =>
        match parse_price (gv "price") with
        | none => .error ("Preço inválido para " ++ ticker)
        | some price =>
          match parse_date (gv "date") with
          | none => .error ("Data inválida para " ++ ticker)
          | some trans_date =>
            let fees := parse_fees (gv "fees")
            let notes := if (column_map.lookup "notes").isSome
                         then some (gv "notes") else none
            .ok { ticker := ticker, type := trans_type, quantity := quantity,
                  price := price, date := trans_date, fees := fees, notes := notes }

/-! ## Data model (backend/app/models) and the session

`Stock`, `Portfolio` and `Transaction` carry the fields the ledger engine
reads; stocks are keyed by ticker (the numeric surrogate ids add nothing to
the claims).  A `Session` holds the last committed database state and the
current in-session state. -/

structure Stock where
  ticker : String
  name : String
  sector : Option String
  is_active : Bool
deriving DecidableEq

structure Portfolio where
  stock_ticker : String
  quantity : Int
  average_price : ℚ
  first_buy_date : Option ℕ
  notes : Option String
deriving DecidableEq

structure Transaction where
  stock_ticker : String
  type : String
  quantity : Int
  price : ℚ
  total_value : ℚ
  date : ℕ
  fees : ℚ
  notes : Option String
deriving DecidableEq

structure DBState where
  stocks : List Stock
  txns : List Transaction
  portfolios : List Portfolio
deriving DecidableEq

structure Session where
  committed : DBState
  current : DBState
deriving DecidableEq

/-- `await db.commit()`: make every pending change durable. -/
def Session.commit (db : Session) : Session := ⟨db.current, db.current⟩

/-- `await db.rollback()`: discard every change since the last commit. -/
def Session.rollback (db : Session) : Session := ⟨db.committed, db.committed⟩

/-- Replace the portfolio row of its stock, or insert it
(`db.add(portfolio)` on a fresh row, attribute assignment on an existing
one; at most one row per stock as `scalar_one_or_none` assumes). -/
def upsertPortfolio (l : List Portfolio) (p : Portfolio) : List Portfolio :=
  if l.any (fun q => q.stock_ticker = p.stock_ticker) then
    l.map (fun q => if q.stock_ticker = p.stock_ticker then p else q)
  else l ++ [p]

/-! ## Transaction Processor (portfolio_service.py lines 124-197) -/

/-- The position-update rules of `process_transaction`
(portfolio_service.py lines 160-191), as a pure function of the optional
existing portfolio row.  A buy updates the weighted average
`(old_average*old_qty + price*qty) / new_qty` or creates the row with
`first_buy_date := trans_date`; a sell requires sufficient quantity, never
touches the average except to zero it when the position closes.  The
division is exact rational division (`Decimal` in the source); fees are
not consulted.  A transaction type other than `buy`/`sell` leaves the
row unchanged, as the `if/elif` does. -/
def apply_txn_rules (portfolio? : Option Portfolio) (stock_ticker : String)
    (trans_type : String) (quantity : Int) (price : ℚ) (trans_date : ℕ) :
    Except String (Option Portfolio) :=
  let total_value := qMul price (qInt quantity)
  if trans_type = "buy" then
    match portfolio? with
    | some portfolio =>
        let old_total := qMul portfolio.average_price (qInt portfolio.quantity)
        let new_total := qAdd old_total total_value
        let new_quantity := portfolio.quantity + quantity
        let new_average := qDiv new_total (qInt new_quantity)
        .ok (some { portfolio with quantity := new_quantity, average_price := new_average })
    | none =>
        .ok (some { stock_ticker := stock_ticker, quantity := quantity,
                    average_price := price, first_buy_date := some trans_date,
                    notes := none })
  else if trans_type = "sell" then
    match portfolio? with
    | none => .error ("Quantidade insuficiente. Disponível: " ++ toString (0 : Int))
    | some portfolio =>
        if portfolio.quantity < quantity then
          .error ("Quantidade insuficiente. Disponível: " ++ toString portfolio.quantity)
        else
          let q2 := portfolio.quantity - quantity
          .ok (some { portfolio with
                      quantity := q2,
                      average_price := if q2 = 0 then 0 else portfolio.average_price })
  else .ok portfolio?

/-- `process_transaction` (portfolio_service.py lines 124-197).  The
`Transaction` row is added to the session before the type dispatch, so a
failing sell leaves it pending in the session; on success the session is
committed before returning. -/
def process_transaction (db : Session) (stock : Stock) (trans_type : String)
    (quantity : Int) (price : ℚ) (trans_date : ℕ) (fees : ℚ) (notes : Option String) :
    Session × Except String (Transaction × Option Portfolio) :=
  let portfolio? := db.current.portfolios.find? (fun p => p.stock_ticker = stock.ticker)
  let total_value := qMul price (qInt quantity)
  let transaction : Transaction :=
    { stock_ticker := stock.ticker, type := trans_type, quantity := quantity,
      price := price, total_value := total_value, date := trans_date,
      fees := fees, notes := notes }
  let db1 : Session :=
    { db with current := { db.current with txns := db.current.txns ++ [transaction] } }
  match apply_txn_rules portfolio? stock.ticker trans_type quantity price trans_date with
  | .error e => (db1, .error e)
  | .ok p? =>
      let db2 : Session :=
        match p? with
        | some p =>
            { db1 with current :=
                { db1.current with portfolios := upsertPortfolio db1.current.portfolios p } }
        | none => db1
      (Session.commit db2, .ok (transaction, p?))

/-! ## Ledger Replay (portfolio_service.py lines 200-260) -/

/-- The replay fold of `recalculate_portfolio_from_transactions`
(portfolio_service.py lines 224-242): running quantity, running total cost
and first buy date.  A sell only adjusts the cost proportionally while the
resulting quantity stays positive; otherwise the cost is carried over
unchanged.  The fold is total: an oversell is not rejected, it drives the
running quantity negative. -/
def replayFold : Int × ℚ × Option ℕ → List Transaction → Int × ℚ × Option ℕ
  | acc, [] => acc
  | (quantity, total_cost, first_buy_date), t :: ts =>
      if t.type = "buy" then
        replayFold
          (quantity + t.quantity,
           qAdd total_cost (qMul t.price (qInt t.quantity)),
           match first_buy_date with
           | none => some t.date
           | some d => some d) ts
      else if t.type = "sell" then
        let q2 := quantity - t.quantity
        replayFold
          (q2,
           if 0 < q2 then qMul (qDiv total_cost (qInt (q2 + t.quantity))) (qInt q2)
           else total_cost,
           first_buy_date) ts
      else replayFold (quantity, total_cost, first_buy_date) ts

/-- The recomputed aggregate of Ledger Replay on an ordered transaction
list: quantity, total cost and first buy date from the empty state. -/
def recalculate_core (transactions : List Transaction) : Int × ℚ × Option ℕ :=
  replayFold (0, 0, none) transactions

/-- The final average of Ledger Replay (portfolio_service.py line 242):
`total_cost / quantity` when the quantity is positive, zero otherwise. -/
def recalculate_average (transactions : List Transaction) : ℚ :=
  let r := recalculate_core transactions
  if 0 < r.1 then qDiv r.2.1 (qInt r.1) else 0

/-- Stable ascending insertion by date, modelling the store's
`ORDER BY date, id` over rows kept in insertion order. -/
def insertByDate (t : Transaction) : List Transaction → List Transaction
  | [] => [t]
  | u :: us => if u.date ≤ t.date then u :: insertByDate t us else t :: u :: us

def sortByDate (l : List Transaction) : List Transaction :=
  l.foldl (fun acc t => insertByDate t acc) []

/-- `recalculate_portfolio_from_transactions` (portfolio_service.py lines
200-260): fetch the transactions of the ticker ordered by (date, insertion
order), delete the portfolio row when there are none, otherwise recompute
it from scratch and commit. -/
def recalculate_portfolio_from_transactions (db : Session) (stock_ticker : String) :
    Session × Option Portfolio :=
  let transactions := sortByDate (db.current.txns.filter (fun t => t.stock_ticker = stock_ticker))
  let portfolio? := db.current.portfolios.find? (fun p => p.stock_ticker = stock_ticker)
  if transactions.isEmpty then
    match portfolio? with
    | some _ =>
        (Session.commit
          { db with current :=
              { db.current with portfolios :=
                  db.current.portfolios.filter (fun p => ¬ p.stock_ticker = stock_ticker) } },
         none)
    | none => (db, none)
  else
    let r := recalculate_core transactions
    let average_price := if 0 < r.1 then qDiv r.2.1 (qInt r.1) else 0
    let p : Portfolio :=
      match portfolio? with
      | some portfolio =>
          { portfolio with
            quantity := r.1,
            average_price := average_price,
            first_buy_date := r.2.2 }
      | none =>
          { stock_ticker := stock_ticker, quantity := r.1,
            average_price := average_price, first_buy_date := r.2.2, notes := none }
    (Session.commit
      { db with current :=
          { db.current with portfolios := upsertPortfolio db.current.portfolios p } },
     some p)

/-! ## Import Orchestrator (import_service.py lines 42-58 and 363-505) -/

/-- `get_or_create_stock` (import_service.py lines 363-383): look the
ticker up, and otherwise create the stock with a placeholder display name
and record it in the created list.  The function never returns `none`:
creation is unconditional, the `create_missing_stocks` flag is not
consulted here. -/
def get_or_create_stock (db : Session) (ticker : String) (created_stocks : List String) :
    Session × List String × Option Stock :=
  match db.current.stocks.find? (fun s => s.ticker = ticker) with
  | some stock => (db, created_stocks, some stock)
  | none =>
      let stock : Stock :=
        { ticker := ticker, name := ticker ++ " (Importado)", sector := none,
          is_active := true }
      ({ db with current := { db.current with stocks := db.current.stocks ++ [stock] } },
       created_stocks ++ [ticker], some stock)

/-- `ImportResult` (import_service.py lines 42-58). -/
structure ImportResult where
  success_count : ℕ
  error_count : ℕ
  skipped_count : ℕ
  errors : List String
  warnings : List String
  created_stocks : List String
deriving DecidableEq

/-- The loop state of `import_csv`: the session, the accumulated result,
the duplicate-key set (insertion-ordered), the 1-based row index of the
next row, and whether an unrecoverable exception has been raised (which
makes the remaining iterations unreachable and triggers the
`except`-branch rollback). -/
structure ImportState where
  db : Session
  res : ImportResult
  processed : List (String × String × Int × ℚ × ℕ)
  idx : ℕ
  fatal : Bool
deriving DecidableEq

/-- One iteration of the row loop of `import_csv` (import_service.py lines
437-490): skip blank rows, parse, suppress in-file duplicates, resolve or
create the stock, and apply the transaction through `process_transaction`
(which commits on success and leaves its pending row on a business-rule
error).  The dead `stock is None` branch of the source is kept: with
creation "disabled" it records a row error, otherwise the `None` stock
reaches `process_transaction` and raises, which the outer handler turns
into a fatal rollback.  The source keys duplicates on
`(ticker, type, quantity, str(price), str(date))`; with `Decimal` embedded
as exact `ℚ` the model keys on the values themselves, which identifies
`Decimal` amounts whose string forms differ only by trailing zeros (for
example 35.5 versus 35.50) — a strictly coarser key; no property proved
here touches duplicate suppression. -/
def import_row_step (column_map : List (String × ℕ))
    (skip_duplicates create_missing_stocks : Bool)
    (st : ImportState) (row : List String) : ImportState :=
  let i := st.idx
  let st := { st with idx := i + 1 }
  if st.fatal then st
  else if row.isEmpty || row.all (fun cell => pyStripS cell = "") then st
  else
    match parse_row row column_map with
    | .error e =>
        { st with res :=
            { st.res with
              errors := st.res.errors ++ ["Linha " ++ toString i ++ ": " ++ e],
              error_count := st.res.error_count + 1 } }
    | .ok tr =>
        let trans_key := (tr.ticker, tr.type, tr.quantity, tr.price, tr.date)
        if skip_duplicates && st.processed.contains trans_key then
          { st with res :=
              { st.res with
                skipped_count := st.res.skipped_count + 1,
                warnings := st.res.warnings ++
                  ["Linha " ++ toString i ++ ": Transação duplicada ignorada (" ++
                   tr.ticker ++ ")"] } }
        else
          let st := { st with processed := st.processed ++ [trans_key] }
          let r := get_or_create_stock st.db tr.ticker st.res.created_stocks
          let st := { st with db := r.1, res := { st.res with created_stocks := r.2.1 } }
          match r.2.2 with
          | none =>
              if !create_missing_stocks then
                { st with res :=
                    { st.res with
                      errors := st.res.errors ++
                        ["Linha " ++ toString i ++ ": Ação " ++ tr.ticker ++
                         " não encontrada"],
                      error_count := st.res.error_count + 1 } }
              else { st with fatal := true }
          | some stock =>
              let notes : String :=
                match tr.notes with
                | some s => if s = "" then "Importado do CSV" else s
                | none => "Importado do CSV"
              let pr := process_transaction st.db stock tr.type tr.quantity
                          tr.price tr.date tr.fees (some notes)
              match pr.2 with
              | .ok _ =>
                  { st with
                    db := pr.1,
                    res := { st.res with success_count := st.res.success_count + 1 } }
              | .error e =>
                  { st with
                    db := pr.1,
                    res :=
                      { st.res with
                        errors := st.res.errors ++
                          ["Linha " ++ toString i ++ " (" ++ tr.ticker ++ "): " ++ e],
                        error_count := st.res.error_count + 1 } }

/-- `import_csv` (import_service.py lines 386-505) over the token rows the
`csv.reader` produces (cell-level embedding; delimiter sniffing and CSV
tokenisation feed this and are not load-bearing for any claim).  The first
row is the header; fewer than two rows is the empty-file error; format
detection must resolve at least the five required roles; every data row
then runs through `import_row_step`, a final commit makes the run durable,
and a fatal exception instead rolls the session back. -/
def import_csv (db : Session) (rows : List (List String))
    (skip_duplicates create_missing_stocks : Bool) : Session × ImportResult :=
  let result : ImportResult := ⟨0, 0, 0, [], [], []⟩
  match rows with
  | [] => (db, { result with errors := ["Arquivo vazio ou sem dados"] })
  | [_] => (db, { result with errors := ["Arquivo vazio ou sem dados"] })
  | headers :: dataRows =>
      let r := detect_format_and_map_columns headers
      let detected_format := r.1
      let column_map := r.2
      if column_map.isEmpty || column_map.length < 5 then
        (db, { result with errors :=
            ["Não foi possível identificar as colunas obrigatórias. " ++
             "O arquivo deve conter: ticker/ativo, tipo (compra/venda), " ++
             "quantidade, preço e data."] })
      else
        let result :=
          { result with warnings := result.warnings ++
              ["Formato detectado: " ++ detected_format,
               "Colunas mapeadas: " ++ String.intercalate ", " (column_map.map Prod.fst)] }
        let init : ImportState := ⟨db, result, [], 2, false⟩
        let final := dataRows.foldl
          (import_row_step column_map skip_duplicates create_missing_stocks) init
        if final.fatal then
          (Session.rollback final.db,
           { final.res with errors :=
               final.res.errors ++ ["Erro fatal ao processar arquivo"] })
        else
          let res :=
            if final.res.created_stocks.isEmpty then final.res
            else
              { final.res with warnings := final.res.warnings ++
                  ["Ações criadas automaticamente: " ++
                   String.intercalate ", " final.res.created_stocks ++
                   ". Considere atualizar os nomes em Ações."] }
          (Session.commit final.db, res)

/-! ## Claim-side definitions -/

/-- Folding a history of transactions through the Transaction Processor
rules (`process_transaction`, lines 160-191) from a given starting row;
the first error aborts the fold, matching the exception. -/
def applyAllFrom : Option Portfolio → List Transaction → Except String (Option Portfolio)
  | acc, [] => .ok acc
  | acc, t :: ts =>
      match apply_txn_rules acc t.stock_ticker t.type t.quantity t.price t.date with
      | .error e => .error e
      | .ok acc2 => applyAllFrom acc2 ts

/-- A history applied incrementally from the empty state (no portfolio
row). -/
def applyAll (ts : List Transaction) : Except String (Option Portfolio) :=
  applyAllFrom none ts

/-- The running-quantity step shared by the incremental rules and Ledger
Replay: buys add, sells subtract, other types leave the quantity alone. -/
def stepQty (q : Int) (t : Transaction) : Int :=
  if t.type = "buy" then q + t.quantity
  else if t.type = "sell" then q - t.quantity
  else q

/-- The position never fully closes strictly before the end of the
history: after every transaction except possibly the last, the running
quantity is positive. -/
def neverClosesEarly : Int → List Transaction → Bool
  | _, [] => true
  | q, t :: ts =>
      let q2 := stepQty q t
      (ts.isEmpty || decide (0 < q2)) && neverClosesEarly q2 ts

/-- Trade dates never decrease along the list, so that list order is the
(date, insertion-order) order in which Ledger Replay folds. -/
def datesMonotone : List Transaction → Bool
  | [] => true
  | [_] => true
  | a :: b :: ts => decide (a.date ≤ b.date) && datesMonotone (b :: ts)

/-- Total bought-minus-sold quantity of a history. -/
def netQty (ts : List Transaction) : Int :=
  ts.foldl (fun q t => stepQty q t) 0

def sumQty (ts : List Transaction) : Int := (ts.map (fun t => t.quantity)).sum

def sumPQ (ts : List Transaction) : ℚ :=
  (ts.map (fun t => t.price * (t.quantity : ℚ))).sum

/-- A transaction record for claim histories (all on one fixed ticker). -/
def mkTxn (ty : String) (q : Int) (p : ℚ) (d : ℕ) (fees : ℚ) : Transaction :=
  { stock_ticker := "WEGE3", type := ty, quantity := q, price := p,
    total_value := qMul p (qInt q), date := d, fees := fees, notes := none }

/-! ## Characterisations of the Transaction Processor rules -/

theorem apply_rules_buy_some (p : Portfolio) (tick : String) (k : Int) (price : ℚ)
    (d : ℕ) :
    apply_txn_rules (some p) tick "buy" k price d =
      .ok (some { p with
                  quantity := p.quantity + k,
                  average_price :=
                    (p.average_price * (p.quantity : ℚ) + price * (k : ℚ)) /
                      ((p.quantity + k : Int) : ℚ) }) := by
  simp [apply_txn_rules]

theorem apply_rules_buy_none (tick : String) (k : Int) (price : ℚ) (d : ℕ) :
    apply_txn_rules none tick "buy" k price d =
      .ok (some { stock_ticker := tick, quantity := k, average_price := price,
                  first_buy_date := some d, notes := none }) := by
  simp [apply_txn_rules]

theorem apply_rules_sell_ok (p : Portfolio) (tick : String) (k : Int) (price : ℚ)
    (d : ℕ) (hk : k ≤ p.quantity) :
    apply_txn_rules (some p) tick "sell" k price d =
      .ok (some { p with
                  quantity := p.quantity - k,
                  average_price :=
                    if p.quantity - k = 0 then 0 else p.average_price }) := by
  simp [apply_txn_rules, not_lt.mpr hk]

theorem apply_rules_sell_insufficient (p : Portfolio) (tick : String) (k : Int)
    (price : ℚ) (d : ℕ) (hk : p.quantity < k) :
    apply_txn_rules (some p) tick "sell" k price d =
      .error ("Quantidade insuficiente. Disponível: " ++ toString p.quantity) := by
  simp [apply_txn_rules, hk]

theorem apply_rules_other (portfolio? : Option Portfolio) (tick : String)
    (ty : String) (k : Int) (price : ℚ) (d : ℕ) (h1 : ty ≠ "buy") (h2 : ty ≠ "sell") :
    apply_txn_rules portfolio? tick ty k price d = .ok portfolio? := by
  simp [apply_txn_rules, h1, h2]

/-! ## Structural lemmas about parse_ticker -/

theorem lookup_mem {α β : Type} [BEq α] [LawfulBEq α] :
    ∀ {l : List (α × β)} {k : α} {v : β}, l.lookup k = some v → (k, v) ∈ l := by
  intro l
  induction l with
  | nil => intro k v h; simp [List.lookup] at h
  | cons a l ih =>
      intro k v h
      rw [List.lookup] at h
      by_cases hk : k == a.1
      · simp [hk] at h
        have : k = a.1 := eq_of_beq hk
        subst this
        subst h
        simp
      · simp [hk] at h
        exact List.mem_cons_of_mem a (ih h)

/-- Uppercasing never turns a non-space character into whitespace. -/
theorem isPySpace_pyUpper (c : Char) (h : isPySpace (pyUpper c) = true) :
    isPySpace c = true := by
  unfold pyUpper at h
  rcases hl : ASCII_CASES.lookup c with _ | u
  · rw [hl] at h
    simpa using h
  · rw [hl] at h
    simp at h
    have hcu : (c, u) ∈ ASCII_CASES := lookup_mem hl
    have hu : u ∈ ASCII_CASES.map Prod.snd := List.mem_map_of_mem Prod.snd hcu
    have hall : ∀ x ∈ ASCII_CASES.map Prod.snd, isPySpace x = false := by decide
    rw [hall u hu] at h
    exact absurd h (by simp)

theorem dropWhile_head_false (p : Char → Bool) :
    ∀ l : List Char, l.dropWhile p ≠ [] → p ((l.dropWhile p).headI) = false := by
  intro l
  induction l with
  | nil => intro h; simp [List.dropWhile] at h
  | cons c cs ih =>
      intro h
      by_cases hc : p c
      · rw [List.dropWhile_cons_of_pos hc] at h ⊢
        exact ih h
      · rw [List.dropWhile_cons_of_neg hc]
        exact Bool.eq_false_iff.mpr hc

theorem dropWhile_suffix_ex (p : Char → Bool) :
    ∀ x : List Char, ∃ u, u ++ x.dropWhile p = x := by
  intro x
  induction x with
  | nil => exact ⟨[], rfl⟩
  | cons c cs ih =>
      by_cases h : p c
      · obtain ⟨u, hu⟩ := ih
        exact ⟨c :: u, by simp [List.dropWhile_cons_of_pos h, hu]⟩
      · exact ⟨[], by simp [List.dropWhile_cons_of_neg h]⟩

/-- Stripping keeps a prefix of the left-trimmed list. -/
theorem pyStrip_prefix_ex (l : List Char) :
    ∃ t, pyStrip l ++ t = l.dropWhile isPySpace := by
  obtain ⟨u, hu⟩ := dropWhile_suffix_ex isPySpace ((l.dropWhile isPySpace).reverse)
  refine ⟨u.reverse, ?_⟩
  unfold pyStrip
  rw [← List.reverse_append, hu, List.reverse_reverse]

theorem pyStrip_head_not_space (l : List Char) (h : pyStrip l ≠ []) :
    isPySpace ((pyStrip l).headI) = false := by
  obtain ⟨t, ht⟩ := pyStrip_prefix_ex l
  have hm : l.dropWhile isPySpace ≠ [] := by
    intro hc
    rw [hc] at ht
    exact h (List.append_eq_nil.mp ht).1
  have hhead := dropWhile_head_false isPySpace l hm
  rcases hs : pyStrip l with _ | ⟨a, s⟩
  · exact absurd hs h
  · rw [hs] at ht
    rw [← ht] at hhead
    simpa using hhead

theorem pyStrip_eq_nil_iff (l : List Char) :
    pyStrip l = [] ↔ l.all isPySpace = true := by
  constructor
  · intro h
    unfold pyStrip at h
    rw [List.reverse_eq_nil_iff, List.dropWhile_eq_nil_iff] at h
    rw [List.all_eq_true]
    intro x hx
    have hx2 : x ∈ l.takeWhile isPySpace ++ l.dropWhile isPySpace := by
      rw [List.takeWhile_append_dropWhile]
      exact hx
    rcases List.mem_append.mp hx2 with h1 | h1
    · exact List.mem_takeWhile_imp h1
    · exact h x (List.mem_reverse.mpr h1)
  · intro h
    have : l.dropWhile isPySpace = [] :=
      List.dropWhile_eq_nil_iff.mpr (fun x hx => List.all_eq_true.mp h x hx)
    unfold pyStrip
    simp [this]

theorem matchTickerAt_some_ne_nil :
    ∀ {l v : List Char}, matchTickerAt l = some v → v ≠ [] := by
  intro l v h
  rcases l with _ | ⟨a, _ | ⟨b, _ | ⟨c, _ | ⟨d, _ | ⟨e, rest⟩⟩⟩⟩⟩
  · simp [matchTickerAt] at h
  · simp [matchTickerAt] at h
  · simp [matchTickerAt] at h
  · simp [matchTickerAt] at h
  · simp [matchTickerAt] at h
  · simp only [matchTickerAt] at h
    split at h
    · rcases rest with _ | ⟨f, rest2⟩
      · injection h with h2
        subst h2
        simp
      · by_cases hf : isDigitChar f = true <;>
          simp only [hf, if_true, if_false, Bool.false_eq_true] at h <;>
          (injection h with h2; subst h2; simp)
    · simp at h

theorem searchTicker_some_ne_nil :
    ∀ {l m : List Char}, searchTicker l = some m → m ≠ [] := by
  intro l
  induction l with
  | nil => intro m h; simp [searchTicker] at h
  | cons c cs ih =>
      intro m h
      rw [searchTicker] at h
      rcases hm : matchTickerAt (c :: cs) with _ | v
      · rw [hm] at h
        exact ih h
      · rw [hm] at h
        injection h with h2
        subst h2
        exact matchTickerAt_some_ne_nil hm

theorem stringMk_eq_empty_iff (v : List Char) : String.mk v = "" ↔ v = [] := by
  constructor
  · intro h
    have := congrArg String.data h
    simpa using this
  · intro h
    rw [h]

theorem dropLast_ne_nil_of_length_gt {v : List Char} (h5 : 5 < v.length) :
    v.dropLast ≠ [] := by
  intro h
  have := congrArg List.length h
  rw [List.length_dropLast] at this
  simp at this
  omega

/-- The ticker normalisation pipeline produces the empty list exactly when
stripping the input leaves nothing. -/
theorem normTicker_eq_nil_iff (s : String) :
    normTicker s = [] ↔ pyStrip s.toList = [] := by
  constructor
  · intro h
    by_contra hs
    rcases hm : pyStrip s.toList with _ | ⟨h0, m⟩
    · exact hs hm
    have hh0 : isPySpace h0 = false := by
      have hne : pyStrip s.toList ≠ [] := by rw [hm]; simp
      have := pyStrip_head_not_space s.toList hne
      rw [hm] at this
      simpa using this
    simp only [normTicker] at h
    rw [hm, List.map_cons] at h
    set v1 := pyUpper h0 :: List.map pyUpper m with hv1
    set v2 := (if v1.contains ' ' = true then List.takeWhile (fun c => !isPySpace c) v1
               else v1) with hv2
    split at h
    · rename_i hcond
      exact dropLast_ne_nil_of_length_gt hcond.2 h
    · rw [hv2] at h
      split at h
      · rw [hv1, List.takeWhile_cons] at h
        split at h
        · simp at h
        · rename_i hpred
          have hsp : isPySpace (pyUpper h0) = true := by
            revert hpred
            cases isPySpace (pyUpper h0) <;> simp
          rw [isPySpace_pyUpper h0 hsp] at hh0
          exact absurd hh0 (by simp)
      · rw [hv1] at h
        simp at h
  · intro h
    unfold normTicker
    rw [h]
    rfl

/-- `parse_ticker` yields the empty string (the only outcome `parse_row`
rejects as an invalid ticker) exactly on empty or whitespace-only cells. -/
theorem parse_ticker_eq_empty_iff (s : String) :
    parse_ticker s = "" ↔ s.toList.all isPySpace = true := by
  rw [← pyStrip_eq_nil_iff]
  unfold parse_ticker
  by_cases hs : s = ""
  · subst hs
    simp [pyStrip]
  · rw [if_neg hs]
    by_cases hfull : fullTickerMatch (normTicker s) = true
    · rw [if_pos hfull]
      constructor
      · intro h
        have hv : normTicker s = [] := (stringMk_eq_empty_iff _).mp h
        rw [hv] at hfull
        exact absurd hfull (by decide)
      · intro h
        have hv : normTicker s = [] := (normTicker_eq_nil_iff s).mpr h
        rw [hv] at hfull
        exact absurd hfull (by decide)
    · rw [if_neg hfull]
      rcases hsearch : searchTicker (normTicker s) with _ | m
      · rw [stringMk_eq_empty_iff]
        exact normTicker_eq_nil_iff s
      · constructor
        · intro h
          exact absurd ((stringMk_eq_empty_iff _).mp h) (searchTicker_some_ne_nil hsearch)
        · intro h
          have hv : normTicker s = [] := (normTicker_eq_nil_iff s).mpr h
          rw [hv] at hsearch
          simp [searchTicker] at hsearch

/-- The pattern test the specification describes for `ParseTicker`: the
normalised value matches `[A-Z]{4}\d{1,2}` in full or contains a substring
matching it. -/
def tickerPatternPresent (v : List Char) : Bool :=
  fullTickerMatch v || (searchTicker v).isSome

/-! ## Agreement of the incremental processor and Ledger Replay -/

/-- The final average Ledger Replay derives from its folded state. -/
def replayAvg (r : Int × ℚ × Option ℕ) : ℚ :=
  if 0 < r.1 then r.2.1 / (r.1 : ℚ) else 0

theorem recalculate_average_eq (ts : List Transaction) :
    recalculate_average ts = replayAvg (recalculate_core ts) := by
  simp [recalculate_average, replayAvg]

/-- Invariant transport: starting from an open position whose average and
quantity carry the replay cost exactly, the incremental rules and the
replay fold stay in lockstep while the position never closes before the
end of the history. -/
theorem replay_agrees_some :
    ∀ (ts : List Transaction) (p : Portfolio) (c : ℚ) (fbd : Option ℕ) (p' : Portfolio),
      (∀ t ∈ ts, 0 < t.quantity) →
      0 < p.quantity →
      p.average_price * (p.quantity : ℚ) = c →
      neverClosesEarly p.quantity ts = true →
      applyAllFrom (some p) ts = .ok (some p') →
      p'.quantity = (replayFold (p.quantity, c, fbd) ts).1 ∧
      p'.average_price = replayAvg (replayFold (p.quantity, c, fbd) ts) := by
  intro ts
  induction ts with
  | nil =>
      intro p c fbd p' hpos hq hc hne hok
      simp only [applyAllFrom, Except.ok.injEq, Option.some.injEq] at hok
      subst hok
      refine ⟨by simp [replayFold], ?_⟩
      have hq0 : ((p.quantity : ℚ)) ≠ 0 := Int.cast_ne_zero.mpr (by omega)
      simp only [replayFold, replayAvg, if_pos hq]
      rw [← hc, mul_div_cancel_right₀ _ hq0]
  | cons t ts ih =>
      intro p c fbd p' hpos hq hc hne hok
      have hpt : 0 < t.quantity := hpos t (by simp)
      have hpos' : ∀ u ∈ ts, 0 < u.quantity := fun u hu => hpos u (by simp [hu])
      simp only [neverClosesEarly, Bool.and_eq_true] at hne
      obtain ⟨hne1, hne2⟩ := hne
      by_cases hbuy : t.type = "buy"
      · -- incremental side
        simp only [applyAllFrom, hbuy, apply_rules_buy_some] at hok
        simp [stepQty, hbuy] at hne2
        have hq1 : 0 < p.quantity + t.quantity := by omega
        have inv : ((p.average_price * (p.quantity : ℚ) + t.price * (t.quantity : ℚ)) /
              ((p.quantity + t.quantity : Int) : ℚ)) *
              ((p.quantity + t.quantity : Int) : ℚ) = c + t.price * (t.quantity : ℚ) := by
          rw [div_mul_cancel₀ _ (Int.cast_ne_zero.mpr (by omega : p.quantity + t.quantity ≠ 0))]
          rw [hc]
        have hih := ih { p with
                     quantity := p.quantity + t.quantity,
                     average_price :=
                       (p.average_price * (p.quantity : ℚ) + t.price * (t.quantity : ℚ)) /
                         ((p.quantity + t.quantity : Int) : ℚ) }
          (c + t.price * (t.quantity : ℚ))
          (match fbd with | none => some t.date | some d => some d) p'
          hpos' (by simpa using hq1) (by simpa using inv) (by simpa using hne2) hok
        simp [replayFold, hbuy]
        simpa using hih
      · by_cases hsell : t.type = "sell"
        · by_cases hins : p.quantity < t.quantity
          · simp only [applyAllFrom, hsell, apply_rules_sell_insufficient _ _ _ _ _ hins]
              at hok
            exact absurd hok (by simp)
          · push_neg at hins
            simp only [applyAllFrom, hsell, apply_rules_sell_ok _ _ _ _ _ hins] at hok
            simp [stepQty, hsell, hbuy] at hne2
            rcases lt_or_eq_of_le (by omega : (0 : Int) ≤ p.quantity - t.quantity)
              with hq2 | hq2
            · -- position stays open
              have hcast : ((p.quantity - t.quantity + t.quantity : Int) : ℚ) =
                  (p.quantity : ℚ) := by push_cast; ring
              have hqne : ((p.quantity : ℚ)) ≠ 0 := Int.cast_ne_zero.mpr (by omega)
              have inv : (if p.quantity - t.quantity = 0 then 0 else p.average_price) *
                  ((p.quantity - t.quantity : Int) : ℚ) =
                  c / ((p.quantity - t.quantity + t.quantity : Int) : ℚ) *
                    ((p.quantity - t.quantity : Int) : ℚ) := by
                rw [if_neg (by omega), hcast, ← hc,
                  mul_div_cancel_right₀ _ hqne]
              have hih := ih { p with
                           quantity := p.quantity - t.quantity,
                           average_price :=
                             if p.quantity - t.quantity = 0 then 0 else p.average_price }
                (c / ((p.quantity - t.quantity + t.quantity : Int) : ℚ) *
                  ((p.quantity - t.quantity : Int) : ℚ))
                fbd p' hpos' (by simpa using hq2) (by simpa using inv)
                (by simpa using hne2) hok
              have hqlt : t.quantity < p.quantity := by omega
              simp [replayFold, hsell, hbuy, hq2, hqlt]
              simpa [hq2, hqlt] using hih
            · -- position closes: the history must end here
              have hq2s : p.quantity - t.quantity = 0 := hq2.symm
              have hts : ts = [] := by
                rcases ts with _ | ⟨u, us⟩
                · rfl
                · exfalso
                  rw [Bool.or_eq_true] at hne1
                  rcases hne1 with h1 | h1
                  · simp at h1
                  · rw [decide_eq_true_eq] at h1
                    unfold stepQty at h1
                    rw [if_neg hbuy, if_pos hsell] at h1
                    omega
              subst hts
              simp only [applyAllFrom, Except.ok.injEq, Option.some.injEq] at hok
              subst hok
              have hnlt : ¬ (t.quantity < p.quantity) := by omega
              constructor
              · simp [replayFold, hsell, hbuy]
              · simp [replayFold, replayAvg, hsell, hbuy, hq2s, hnlt]
        · -- a type that is neither buy nor sell leaves both sides unchanged
          simp only [applyAllFrom, apply_rules_other _ _ _ _ _ _ hbuy hsell] at hok
          simp [stepQty, hbuy, hsell] at hne2
          have hih := ih p c fbd p' hpos' hq hc hne2 hok
          simpa [replayFold, hbuy, hsell] using hih

/-- Agreement from the empty state: histories the incremental processor
accepts and that never close the position before the end produce the same
quantity and average as the replay fold. -/
theorem replay_agrees_none :
    ∀ (ts : List Transaction) (fbd : Option ℕ) (p' : Portfolio),
      (∀ t ∈ ts, 0 < t.quantity) →
      neverClosesEarly 0 ts = true →
      applyAllFrom none ts = .ok (some p') →
      p'.quantity = (replayFold (0, 0, fbd) ts).1 ∧
      p'.average_price = replayAvg (replayFold (0, 0, fbd) ts) := by
  intro ts
  induction ts with
  | nil =>
      intro fbd p' hpos hne hok
      simp [applyAllFrom] at hok
  | cons t ts ih =>
      intro fbd p' hpos hne hok
      have hpt : 0 < t.quantity := hpos t (by simp)
      have hpos' : ∀ u ∈ ts, 0 < u.quantity := fun u hu => hpos u (by simp [hu])
      simp only [neverClosesEarly, Bool.and_eq_true] at hne
      obtain ⟨hne1, hne2⟩ := hne
      by_cases hbuy : t.type = "buy"
      · simp only [applyAllFrom, hbuy, apply_rules_buy_none] at hok
        simp [stepQty, hbuy] at hne2
        have hih := replay_agrees_some ts
          { stock_ticker := t.stock_ticker, quantity := t.quantity,
            average_price := t.price, first_buy_date := some t.date, notes := none }
          (0 + t.price * (t.quantity : ℚ))
          (match fbd with | none => some t.date | some d => some d) p'
          hpos' (by simpa using hpt) (by simp) (by simpa using hne2) hok
        simp [replayFold, hbuy]
        simpa using hih
      · by_cases hsell : t.type = "sell"
        · simp only [applyAllFrom, hsell] at hok
          rw [show apply_txn_rules none t.stock_ticker "sell" t.quantity t.price t.date =
              .error ("Quantidade insuficiente. Disponível: " ++ toString (0 : Int)) from by
            simp [apply_txn_rules]] at hok
          exact absurd hok (by simp)
        · simp only [applyAllFrom, apply_rules_other _ _ _ _ _ _ hbuy hsell] at hok
          rcases ts with _ | ⟨u, us⟩
          · simp [applyAllFrom] at hok
          · exfalso
            rw [Bool.or_eq_true] at hne1
            rcases hne1 with h1 | h1
            · simp at h1
            · rw [decide_eq_true_eq] at h1
              unfold stepQty at h1
              rw [if_neg hbuy, if_neg hsell] at h1
              omega

/-- C1 counterexample history: a position fully closed and then reopened
by a new buy. -/
def C1ts : List Transaction :=
  [mkTxn "buy" 100 10 20240101 0, mkTxn "sell" 100 10 20240102 0,
   mkTxn "buy" 50 20 20240103 0]

/-- C1: the claim fails on close-and-reopen histories.  On
`C1ts` every transaction applies successfully through the incremental
rules (ending with quantity 50 and average cost 20), the premises of the
claim hold (dates monotone, positive quantities), yet Ledger Replay over
the same ordered history produces average cost 40: the replay fold keeps
the cost basis of the closed position (portfolio_service.py lines 235-240)
while the incremental rules zero it (lines 190-191). -/
theorem C1_counterexample :
    datesMonotone C1ts = true ∧
    (∀ t ∈ C1ts, 0 < t.quantity) ∧
    applyAll C1ts =
      .ok (some { stock_ticker := "WEGE3", quantity := 50, average_price := 20,
                  first_buy_date := some 20240101, notes := none }) ∧
    (recalculate_core C1ts).1 = 50 ∧
    recalculate_average C1ts = 40 ∧
    (20 : ℚ) ≠ 40 := by
  decide

/-- C1 (amended): for every history of successfully applied transactions,
listed in (date, insertion-order) order, in which the position never fully
closes strictly before the end, the incremental Transaction Processor and
Ledger Replay agree exactly on the final quantity and average cost.  (The
unamended claim also covered histories that close and reopen;
`C1_counterexample` shows those diverge.) -/
theorem C1_incremental_matches_replay (ts : List Transaction) (p : Portfolio)
    (hmono : datesMonotone ts = true)
    (hpos : ∀ t ∈ ts, 0 < t.quantity)
    (hne : neverClosesEarly 0 ts = true)
    (hok : applyAll ts = .ok (some p)) :
    p.quantity = (recalculate_core ts).1 ∧
    p.average_price = recalculate_average ts := by
  have h := replay_agrees_none ts none p hpos hne hok
  rw [recalculate_average_eq]
  exact h

/-- C1 witness history: buy, partial sell, buy again. -/
def C1wts : List Transaction :=
  [mkTxn "buy" 100 10 20240101 0, mkTxn "sell" 40 12 20240102 0,
   mkTxn "buy" 50 20 20240103 0]

/-- Witness for `C1_incremental_matches_replay` at a concrete history. -/
theorem C1_incremental_matches_replay_witness :
    ({ stock_ticker := "WEGE3", quantity := 110, average_price := mkRat 160 11,
       first_buy_date := some 20240101, notes := none } : Portfolio).quantity =
      (recalculate_core C1wts).1 ∧
    ({ stock_ticker := "WEGE3", quantity := 110, average_price := mkRat 160 11,
       first_buy_date := some 20240101, notes := none } : Portfolio).average_price =
      recalculate_average C1wts :=
  C1_incremental_matches_replay C1wts
    { stock_ticker := "WEGE3", quantity := 110, average_price := mkRat 160 11,
      first_buy_date := some 20240101, notes := none }
    (by decide) (by decide) (by decide) (by decide)

/-! ## Buys-only histories (C5) -/

/-- Folding buys over an open position always succeeds, adds the
quantities, and accumulates cost exactly. -/
theorem applyAll_buys_from :
    ∀ (ts : List Transaction),
      (∀ t ∈ ts, t.type = "buy" ∧ 0 < t.quantity) →
      ∀ (p : Portfolio), 0 < p.quantity →
        ∃ p' : Portfolio,
          applyAllFrom (some p) ts = .ok (some p') ∧
          p'.quantity = p.quantity + sumQty ts ∧
          p'.average_price * ((p.quantity + sumQty ts : Int) : ℚ) =
            p.average_price * (p.quantity : ℚ) + sumPQ ts ∧
          p'.first_buy_date = p.first_buy_date := by
  intro ts
  induction ts with
  | nil =>
      intro hb p hq
      exact ⟨p, by simp [applyAllFrom], by simp [sumQty], by simp [sumQty, sumPQ], rfl⟩
  | cons t ts ih =>
      intro hb p hq
      obtain ⟨hbuy, hpt⟩ := hb t (by simp)
      have hb' : ∀ u ∈ ts, u.type = "buy" ∧ 0 < u.quantity :=
        fun u hu => hb u (by simp [hu])
      have hq1 : 0 < p.quantity + t.quantity := by omega
      obtain ⟨p', h1, h2, h3, h4⟩ := ih hb'
        { p with
          quantity := p.quantity + t.quantity,
          average_price :=
            (p.average_price * (p.quantity : ℚ) + t.price * (t.quantity : ℚ)) /
              ((p.quantity + t.quantity : Int) : ℚ) }
        (by simpa using hq1)
      refine ⟨p', ?_, ?_, ?_, by simpa using h4⟩
      · simp only [applyAllFrom, hbuy, apply_rules_buy_some]
        exact h1
      · simp only [h2]
        simp [sumQty]
        omega
      · have hcancel :
            (p.average_price * (p.quantity : ℚ) + t.price * (t.quantity : ℚ)) /
              ((p.quantity + t.quantity : Int) : ℚ) *
              ((p.quantity + t.quantity : Int) : ℚ) =
              p.average_price * (p.quantity : ℚ) + t.price * (t.quantity : ℚ) :=
          div_mul_cancel₀ _ (Int.cast_ne_zero.mpr (by omega : p.quantity + t.quantity ≠ 0))
        have h3' := h3
        simp only [Portfolio.mk.injEq] at h3'
        have hsum : ((p.quantity + t.quantity + sumQty ts : Int) : ℚ) =
            ((p.quantity + (t.quantity + sumQty ts) : Int) : ℚ) := by
          push_cast
          ring
        calc p'.average_price * ((p.quantity + sumQty (t :: ts) : Int) : ℚ)
            = p'.average_price * ((p.quantity + t.quantity + sumQty ts : Int) : ℚ) := by
              have : sumQty (t :: ts) = t.quantity + sumQty ts := by simp [sumQty]
              rw [this]
              congr 1
              push_cast
              ring
          _ = (p.average_price * (p.quantity : ℚ) + t.price * (t.quantity : ℚ)) /
                ((p.quantity + t.quantity : Int) : ℚ) *
                ((p.quantity + t.quantity : Int) : ℚ) + sumPQ ts := by
              have := h3
              simpa using this
          _ = p.average_price * (p.quantity : ℚ) + sumPQ (t :: ts) := by
              rw [hcancel]
              simp [sumPQ]
              ring

/-- Changing only the fees of a history changes nothing in the position the
incremental rules produce: the rules never read the fees field. -/
theorem applyAllFrom_fees_invariant (f : Transaction → ℚ) (ts : List Transaction) :
    ∀ acc, applyAllFrom acc (ts.map (fun t => { t with fees := f t })) =
      applyAllFrom acc ts := by
  induction ts with
  | nil => intro acc; rfl
  | cons t ts ih =>
      intro acc
      simp only [List.map_cons, applyAllFrom]
      cases h : apply_txn_rules acc t.stock_ticker t.type t.quantity t.price t.date with
      | error e => simp [h]
      | ok acc2 => simp [h, ih]

/-- C5: for every nonempty buys-only history applied from the empty state,
the incremental rules succeed, the final quantity is the sum of the bought
quantities, the final average cost is the quantity-weighted mean
`Σ(price*qty) / Σ(qty)`, and the result is invariant under arbitrary
changes to the fees of the transactions (fees never enter the cost
basis). -/
theorem C5_buys_weighted_average (ts : List Transaction) (hne : ts ≠ [])
    (hb : ∀ t ∈ ts, t.type = "buy" ∧ 0 < t.quantity) :
    ∃ p : Portfolio,
      applyAll ts = .ok (some p) ∧
      p.quantity = sumQty ts ∧
      p.average_price = sumPQ ts / ((sumQty ts : Int) : ℚ) ∧
      ∀ f : Transaction → ℚ,
        applyAll (ts.map (fun t => { t with fees := f t })) = applyAll ts := by
  rcases ts with _ | ⟨t, ts⟩
  · exact absurd rfl hne
  · obtain ⟨hbuy, hpt⟩ := hb t (by simp)
    have hb' : ∀ u ∈ ts, u.type = "buy" ∧ 0 < u.quantity :=
      fun u hu => hb u (by simp [hu])
    obtain ⟨p', h1, h2, h3, h4⟩ := applyAll_buys_from ts hb'
      { stock_ticker := t.stock_ticker, quantity := t.quantity,
        average_price := t.price, first_buy_date := some t.date, notes := none }
      (by simpa using hpt)
    have hS : 0 < sumQty (t :: ts) := by
      have hnn : (0 : Int) ≤ sumQty ts := by
        apply List.sum_nonneg
        intro x hx
        obtain ⟨u, hu, rfl⟩ := List.mem_map.mp hx
        exact le_of_lt (hb' u hu).2
      simp [sumQty] at hnn ⊢
      omega
    refine ⟨p', ?_, ?_, ?_, ?_⟩
    · simp only [applyAll, applyAllFrom, hbuy, apply_rules_buy_none]
      exact h1
    · simp only [h2]
      simp [sumQty]
    · have hSne : ((sumQty (t :: ts) : Int) : ℚ) ≠ 0 :=
        Int.cast_ne_zero.mpr (by omega)
      rw [eq_div_iff hSne]
      have hq3 : p'.average_price * ((t.quantity + sumQty ts : Int) : ℚ) =
          t.price * (t.quantity : ℚ) + sumPQ ts := by
        simpa using h3
      have : sumQty (t :: ts) = t.quantity + sumQty ts := by simp [sumQty]
      rw [this]
      rw [hq3]
      simp [sumPQ]
    · intro f
      exact applyAllFrom_fees_invariant f (t :: ts) none

/-- C5 witness history: two buys with distinct prices and nonzero fees. -/
def C5ts : List Transaction :=
  [mkTxn "buy" 2 10 20240101 1, mkTxn "buy" 2 20 20240102 3]

/-- Witness for `C5_buys_weighted_average` at a concrete history. -/
theorem C5_buys_weighted_average_witness :
    ∃ p : Portfolio,
      applyAll C5ts = .ok (some p) ∧
      p.quantity = sumQty C5ts ∧
      p.average_price = sumPQ C5ts / ((sumQty C5ts : Int) : ℚ) ∧
      ∀ f : Transaction → ℚ,
        applyAll (C5ts.map (fun t => { t with fees := f t })) = applyAll C5ts :=
  C5_buys_weighted_average C5ts (by decide) (by decide)

/-! ## C6: a successful sell -/

/-- C6: a sell of `k ≤ quantity` shares through the Transaction Processor
rules succeeds, reduces the quantity by exactly `k`, leaves the average
cost unchanged when `k < quantity`, and on `k = quantity` closes the
position (quantity 0) and resets the stored average cost to zero. -/
theorem C6_sell_preserves_basis (p : Portfolio) (tick : String) (k : Int) (price : ℚ)
    (d : ℕ) (hk : 0 < k) (hkq : k ≤ p.quantity) :
    ∃ p' : Portfolio,
      apply_txn_rules (some p) tick "sell" k price d = .ok (some p') ∧
      p'.quantity = p.quantity - k ∧
      (k < p.quantity → p'.average_price = p.average_price) ∧
      (k = p.quantity → p'.quantity = 0 ∧ p'.average_price = 0) := by
  refine ⟨_, apply_rules_sell_ok p tick k price d hkq, by simp, ?_, ?_⟩
  · intro hlt
    simp [if_neg (by omega : ¬ (p.quantity - k = 0))]
  · intro heq
    refine ⟨by simp; omega, ?_⟩
    simp [if_pos (by omega : p.quantity - k = 0)]

def C6p : Portfolio :=
  { stock_ticker := "PETR4", quantity := 100, average_price := 7,
    first_buy_date := some 20230101, notes := none }

/-- Witness for `C6_sell_preserves_basis` at a concrete partial sell. -/
theorem C6_sell_preserves_basis_witness :
    ∃ p' : Portfolio,
      apply_txn_rules (some C6p) "PETR4" "sell" 40 9 20240101 = .ok (some p') ∧
      p'.quantity = C6p.quantity - 40 ∧
      (40 < C6p.quantity → p'.average_price = C6p.average_price) ∧
      (40 = C6p.quantity → p'.quantity = 0 ∧ p'.average_price = 0) :=
  C6_sell_preserves_basis C6p "PETR4" 40 9 20240101 (by decide) (by decide)

/-! ## C8: the first-purchase date -/

def C8p : Portfolio :=
  { stock_ticker := "PETR4", quantity := 0, average_price := 0,
    first_buy_date := some 20240110, notes := none }

/-- C8 counterexample: a buy into an existing zero-quantity (Closed)
Position row leaves the stored first-purchase date unchanged instead of
setting it to the date of the transaction — the `if portfolio:` branch of
`process_transaction` (portfolio_service.py lines 161-169) never touches
`first_buy_date`. -/
theorem C8_counterexample :
    apply_txn_rules (some C8p) "PETR4" "buy" 50 20 20240301 =
      .ok (some { stock_ticker := "PETR4", quantity := 50, average_price := 20,
                  first_buy_date := some 20240110, notes := none }) ∧
    some (20240110 : ℕ) ≠ some (20240301 : ℕ) := by
  decide

/-- C8 (amended): a buy sets the first-purchase date to the trade date of
the transaction exactly when no Position row exists; a buy into an existing row
— even one with quantity 0 — leaves the stored first-purchase date
unchanged. -/
theorem C8_first_buy_date (tick : String) (k : Int) (price : ℚ) (d : ℕ) (p : Portfolio) :
    (∃ p1 : Portfolio, apply_txn_rules none tick "buy" k price d = .ok (some p1) ∧
      p1.first_buy_date = some d) ∧
    (∃ p2 : Portfolio, apply_txn_rules (some p) tick "buy" k price d = .ok (some p2) ∧
      p2.first_buy_date = p.first_buy_date) := by
  constructor
  · exact ⟨_, apply_rules_buy_none tick k price d, rfl⟩
  · exact ⟨_, apply_rules_buy_some p tick k price d, rfl⟩

/-- Witness for `C8_first_buy_date` at a concrete buy into a closed row. -/
theorem C8_first_buy_date_witness :
    (∃ p1 : Portfolio,
      apply_txn_rules none "PETR4" "buy" 50 20 20240301 = .ok (some p1) ∧
      p1.first_buy_date = some 20240301) ∧
    (∃ p2 : Portfolio,
      apply_txn_rules (some C8p) "PETR4" "buy" 50 20 20240301 = .ok (some p2) ∧
      p2.first_buy_date = C8p.first_buy_date) :=
  C8_first_buy_date "PETR4" 50 20 20240301 C8p

/-! ## C10: totality of Ledger Replay -/

theorem replayFold_qty :
    ∀ (ts : List Transaction) (q : Int) (c : ℚ) (fbd : Option ℕ),
      (replayFold (q, c, fbd) ts).1 = ts.foldl stepQty q := by
  intro ts
  induction ts with
  | nil => intro q c fbd; rfl
  | cons t ts ih =>
      intro q c fbd
      by_cases hbuy : t.type = "buy"
      · simp [replayFold, hbuy, stepQty, ih]
      · by_cases hsell : t.type = "sell"
        · simp [replayFold, hbuy, hsell, stepQty, ih]
        · simp [replayFold, hbuy, hsell, stepQty, ih]

/-- C10: Ledger Replay is a total fold — it rejects nothing.  Its final
quantity is always the bought-minus-sold net of the ordered history (so an
oversold history silently yields a non-positive quantity), and whenever
that net quantity is zero or negative the stored average cost is set to
zero (portfolio_service.py line 242). -/
theorem C10_replay_total (ts : List Transaction) :
    (recalculate_core ts).1 = netQty ts ∧
    ((recalculate_core ts).1 ≤ 0 → recalculate_average ts = 0) := by
  constructor
  · have := replayFold_qty ts 0 0 none
    simpa [recalculate_core, netQty] using this
  · intro h
    simp only [recalculate_average]
    rw [if_neg (by omega)]

def C10ts : List Transaction := [mkTxn "sell" 5 10 20240101 0]

/-- Witness for `C10_replay_total`: replaying a lone oversell produces
quantity −5 and average cost 0 without an error. -/
theorem C10_replay_total_witness :
    (recalculate_core C10ts).1 = netQty C10ts ∧ recalculate_average C10ts = 0 :=
  ⟨(C10_replay_total C10ts).1, (C10_replay_total C10ts).2 (by decide)⟩

/-! ## C7: parse_ticker accepts non-matching values -/

def C7row : List String := ["hello", "compra", "10", "5", "01/01/2024"]

def C7cm : List (String × ℕ) :=
  [("ticker", 0), ("type", 1), ("quantity", 2), ("price", 3), ("date", 4)]

/-- C7 counterexample: `"hello"` contains no `[A-Z]{4}\d{1,2}` pattern at
all, yet `parse_ticker` returns `"HELLO"` rather than failing, and a whole
row with that ticker cell parses successfully — the row is not rejected.
The final `return value` of `parse_ticker` (import_service.py line 204)
passes non-matching values through. -/
theorem C7_counterexample :
    parse_ticker "hello" = "HELLO" ∧
    tickerPatternPresent (normTicker "hello") = false ∧
    ¬ parse_ticker "hello" = "" ∧
    parse_row C7row C7cm =
      .ok { ticker := "HELLO", type := "buy", quantity := 10, price := 5,
            date := 20240101, fees := 0, notes := none } := by
  decide

theorem append_ne_of_take_ne {a b : String} (t : String) (k : ℕ)
    (hk : k ≤ a.data.length) (hne : a.data.take k ≠ b.data.take k) : a ++ t ≠ b := by
  intro h
  apply hne
  have hd : a.data ++ t.data = b.data := congrArg String.data h
  rw [← hd, List.take_append_of_le_length hk]

theorem tipo_error_ne (t : String) :
    "Tipo de operação não reconhecido para " ++ t ≠
      "Ticker não encontrado ou inválido" :=
  append_ne_of_take_ne t 3 (by decide) (by decide)

theorem quantidade_error_ne (t : String) :
    "Quantidade inválida para " ++ t ≠ "Ticker não encontrado ou inválido" :=
  append_ne_of_take_ne t 1 (by decide) (by decide)

theorem preco_error_ne (t : String) :
    "Preço inválido para " ++ t ≠ "Ticker não encontrado ou inválido" :=
  append_ne_of_take_ne t 1 (by decide) (by decide)

theorem data_error_ne (t : String) :
    "Data inválida para " ++ t ≠ "Ticker não encontrado ou inválido" :=
  append_ne_of_take_ne t 1 (by decide) (by decide)

/-- C7 (amended): when the `[A-Z]{4}\d{1,2}` pattern is present in the
normalised value, `parse_ticker` returns the full match (the normalised
value itself) or, failing that, the first extracted substring matching the
pattern; when no pattern can be extracted it returns the normalised value
itself rather than failing.  It fails (returns the empty string) exactly
on empty or whitespace-only input, `parse_row` rejects a row with the
invalid-ticker error exactly when its ticker cell is empty or
whitespace-only, and every row `parse_row` does accept carries exactly the
`parse_ticker` output — the fallthrough value included — as its ticker. -/
theorem C7_ticker_fallthrough :
    (∀ s : String, parse_ticker s = "" ↔ s.toList.all isPySpace = true) ∧
    (∀ s : String, fullTickerMatch (normTicker s) = true →
      parse_ticker s = String.mk (normTicker s)) ∧
    (∀ (s : String) (m : List Char), fullTickerMatch (normTicker s) = false →
      searchTicker (normTicker s) = some m → parse_ticker s = String.mk m) ∧
    (∀ s : String, tickerPatternPresent (normTicker s) = false →
      parse_ticker s = String.mk (normTicker s)) ∧
    (∀ (row : List String) (cm : List (String × ℕ)),
      parse_row row cm = .error "Ticker não encontrado ou inválido" ↔
        (get_value row cm "ticker").toList.all isPySpace = true) ∧
    (∀ (row : List String) (cm : List (String × ℕ)) (tr : ParsedTransaction),
      parse_row row cm = .ok tr →
        tr.ticker = parse_ticker (get_value row cm "ticker")) := by
  have hnil : normTicker "" = [] := rfl
  refine ⟨fun s => parse_ticker_eq_empty_iff s, ?_, ?_, ?_, ?_, ?_⟩
  · -- full match: the normalised value is returned as matched
    intro s hfull
    have hs : s ≠ "" := by
      intro he
      subst he
      rw [hnil] at hfull
      exact absurd hfull (by decide)
    unfold parse_ticker
    rw [if_neg hs]
    simp only [hfull]
    simp
  · -- extraction: the first substring match is returned
    intro s m hfull hsearch
    have hs : s ≠ "" := by
      intro he
      subst he
      rw [hnil] at hsearch
      simp [searchTicker] at hsearch
    unfold parse_ticker
    rw [if_neg hs]
    simp only [hfull, hsearch]
    simp
  · -- fallthrough: no pattern, the normalised value is returned unchanged
    intro s h
    rw [tickerPatternPresent, Bool.or_eq_false_iff] at h
    obtain ⟨h1, h2⟩ := h
    have h2' : searchTicker (normTicker s) = none := by
      rcases hsr : searchTicker (normTicker s) with _ | m
      · rfl
      · rw [hsr] at h2
        simp at h2
    unfold parse_ticker
    by_cases hs : s = ""
    · rw [if_pos hs]
      subst hs
      rfl
    · rw [if_neg hs]
      simp only [h1, h2']
      simp
  · -- a row is rejected as an invalid ticker iff the cell strips to nothing
    intro row cm
    constructor
    · intro h
      simp only [parse_row] at h
      by_cases ht : parse_ticker (get_value row cm "ticker") = ""
      · exact (parse_ticker_eq_empty_iff _).mp ht
      · exfalso
        rw [if_neg ht] at h
        rcases hty : parse_type (get_value row cm "type") with _ | ty
        · rw [hty] at h
          simp only [Except.error.injEq] at h
          exact tipo_error_ne _ h
        · rw [hty] at h
          rcases hq : parse_quantity (get_value row cm "quantity") with _ | q
          · rw [hq] at h
            simp only [Except.error.injEq] at h
            exact quantidade_error_ne _ h
          · rw [hq] at h
            rcases hp : parse_price (get_value row cm "price") with _ | pr
            · rw [hp] at h
              simp only [Except.error.injEq] at h
              exact preco_error_ne _ h
            · rw [hp] at h
              rcases hd : parse_date (get_value row cm "date") with _ | d
              · rw [hd] at h
                simp only [Except.error.injEq] at h
                exact data_error_ne _ h
              · rw [hd] at h
                simp at h
    · intro h
      have ht : parse_ticker (get_value row cm "ticker") = "" :=
        (parse_ticker_eq_empty_iff _).mpr h
      simp only [parse_row]
      rw [if_pos ht]
  · -- an accepted row carries the parse_ticker output as its ticker
    intro row cm tr h
    simp only [parse_row] at h
    by_cases ht : parse_ticker (get_value row cm "ticker") = ""
    · rw [if_pos ht] at h
      exact absurd h (by simp)
    · rw [if_neg ht] at h
      rcases hty : parse_type (get_value row cm "type") with _ | ty
      · rw [hty] at h
        exact absurd h (by simp)
      · rw [hty] at h
        rcases hq : parse_quantity (get_value row cm "quantity") with _ | q
        · rw [hq] at h
          exact absurd h (by simp)
        · rw [hq] at h
          rcases hp : parse_price (get_value row cm "price") with _ | pr
          · rw [hp] at h
            exact absurd h (by simp)
          · rw [hp] at h
            rcases hd : parse_date (get_value row cm "date") with _ | d
            · rw [hd] at h
              exact absurd h (by simp)
            · rw [hd] at h
              simp only [Except.ok.injEq] at h
              rw [← h]

/-- Witness for `C7_ticker_fallthrough`: the fallthrough at `"hello"`, the
full match after token splitting at `"petr4 on"`, and the acceptance of the
fallthrough ticker by `parse_row` on the concrete row. -/
theorem C7_ticker_fallthrough_witness :
    parse_ticker "hello" = String.mk (normTicker "hello") ∧
    parse_ticker "petr4 on" = String.mk (normTicker "petr4 on") ∧
    ({ ticker := "HELLO", type := "buy", quantity := 10, price := 5,
       date := 20240101, fees := 0, notes := none } : ParsedTransaction).ticker =
      parse_ticker (get_value C7row C7cm "ticker") :=
  ⟨C7_ticker_fallthrough.2.2.2.1 "hello" (by decide),
   C7_ticker_fallthrough.2.1 "petr4 on" (by decide),
   C7_ticker_fallthrough.2.2.2.2.2 C7row C7cm
     { ticker := "HELLO", type := "buy", quantity := 10, price := 5,
       date := 20240101, fees := 0, notes := none } (by decide)⟩

/-! ## C9: price separator disambiguation -/

/-- The disambiguation rule as the specification words it: of the two
separators, the one occurring later in the string is the decimal point and
the earlier one is a removable thousands separator. -/
def specDisambiguate (v : List Char) : List Char :=
  if pyRfind v ',' > pyRfind v '.' then
    (v.filter (fun c => !(c == '.'))).map (fun c => if c == ',' then '.' else c)
  else v.filter (fun c => !(c == ','))

/-- C9: for every price string containing both separators (after currency
stripping), `parse_price` parses the string transformed by the
later-separator-is-decimal rule; with only a comma present the comma is
the decimal point; and both `"1.234,56"` and `"1,234.56"` parse to exactly
1234.56. -/
theorem C9_price_separators :
    (∀ s : String,
      (stripCurrency s).contains ',' = true →
      (stripCurrency s).contains '.' = true →
      parse_price s =
        (decimalOfChars (specDisambiguate (stripCurrency s))).bind
          (fun price => if 0 < price then some |price| else none)) ∧
    (∀ s : String,
      (stripCurrency s).contains ',' = true →
      (stripCurrency s).contains '.' = false →
      parse_price s =
        (decimalOfChars ((stripCurrency s).map (fun c => if c == ',' then '.' else c))).bind
          (fun price => if 0 < price then some |price| else none)) ∧
    parse_price "1.234,56" = some (mkRat 123456 100) ∧
    parse_price "1,234.56" = some (mkRat 123456 100) := by
  refine ⟨?_, ?_, by decide, by decide⟩
  · intro s h1 h2
    by_cases hs : s = ""
    · subst hs
      exact absurd h1 (by decide)
    · unfold parse_price
      rw [if_neg hs]
      simp only [h1, h2, Bool.and_self, if_true, specDisambiguate]
      cases hd : decimalOfChars (if pyRfind (stripCurrency s) ',' > pyRfind (stripCurrency s) '.'
          then ((stripCurrency s).filter (fun c => !(c == '.'))).map
            (fun c => if c == ',' then '.' else c)
          else (stripCurrency s).filter (fun c => !(c == ','))) with
      | none => simp [hd]
      | some price => simp [hd]
  · intro s h1 h2
    by_cases hs : s = ""
    · subst hs
      exact absurd h1 (by decide)
    · unfold parse_price
      rw [if_neg hs]
      simp only [h1, h2, Bool.and_false, Bool.false_eq_true, if_false, if_true]
      cases hd : decimalOfChars ((stripCurrency s).map (fun c => if c == ',' then '.' else c)) with
      | none => simp [hd]
      | some price => simp [hd]

/-- Witness for `C9_price_separators`: the universal branch instantiated
at the Brazilian-formatted cell. -/
theorem C9_price_separators_witness :
    parse_price "1.234,56" =
      (decimalOfChars (specDisambiguate (stripCurrency "1.234,56"))).bind
        (fun price => if 0 < price then some |price| else none) :=
  C9_price_separators.1 "1.234,56" (by decide) (by decide)

/-! ## Concrete import runs (C2, C3, C4) -/

def headerRow : List String := ["ticker", "tipo", "quantidade", "preco", "data"]

def petr4Stock : Stock :=
  { ticker := "PETR4", name := "Petrobras", sector := none, is_active := true }

def petr4Pos : Portfolio :=
  { stock_ticker := "PETR4", quantity := 100, average_price := 28,
    first_buy_date := some 20230101, notes := none }

/-- A session whose durable state holds the PETR4 stock and a Position of
100 shares, with no pending changes. -/
def sessionWithPetr4 : Session :=
  { committed := { stocks := [petr4Stock], txns := [], portfolios := [petr4Pos] },
    current := { stocks := [petr4Stock], txns := [], portfolios := [petr4Pos] } }

def emptySession : Session :=
  { committed := { stocks := [], txns := [], portfolios := [] },
    current := { stocks := [], txns := [], portfolios := [] } }

def sellRow : List String := ["PETR4", "venda", "150", "10", "01/02/2024"]

/-- C2: importing a single sell of 150 shares against a held position of
100 raises the insufficient-shares row error and leaves the Position
untouched — but the operation is not atomic: `process_transaction` adds
the Transaction row to the session before the check
(portfolio_service.py line 158), so the orphaned sell Transaction is
persisted by the final commit of the run even though its Position update never
happened. -/
theorem C2_failed_sell_persists_transaction :
    (import_csv sessionWithPetr4 [headerRow, sellRow] true true).2.error_count = 1 ∧
    (import_csv sessionWithPetr4 [headerRow, sellRow] true true).2.success_count = 0 ∧
    (import_csv sessionWithPetr4 [headerRow, sellRow] true true).2.errors =
      ["Linha 2 (PETR4): Quantidade insuficiente. Disponível: 100"] ∧
    (import_csv sessionWithPetr4 [headerRow, sellRow] true true).1.committed.portfolios =
      [petr4Pos] ∧
    (import_csv sessionWithPetr4 [headerRow, sellRow] true true).1.committed.txns =
      [{ stock_ticker := "PETR4", type := "sell", quantity := 150, price := 10,
         total_value := qMul 10 (qInt 150), date := 20240201, fees := 0,
         notes := some "Importado do CSV" }] := by
  decide

def importColumnMap : List (String × ℕ) :=
  [("ticker", 0), ("type", 1), ("quantity", 2), ("price", 3), ("date", 4)]

def buyRow1 : List String := ["WEGE3", "compra", "10", "5", "01/01/2024"]

/-- The loop state import_csv builds for a file with `headerRow` before
processing the first data row. -/
def c3InitState : ImportState :=
  { db := emptySession,
    res := { success_count := 0, error_count := 0, skipped_count := 0, errors := [],
             warnings := ["Formato detectado: b3_area_investidor",
                          "Colunas mapeadas: ticker, type, quantity, price, date"],
             created_stocks := [] },
    processed := [], idx := 2, fatal := false }

def wege3BuyTxn : Transaction :=
  { stock_ticker := "WEGE3", type := "buy", quantity := 10, price := 5,
    total_value := qMul 5 (qInt 10), date := 20240101, fees := 0,
    notes := some "Importado do CSV" }

/-- C3: the import run is not one atomic unit.  `process_transaction`
commits inside the per-row loop (portfolio_service.py line 193), so after
the loop body has processed the first data row — the exact state
`import_csv` reaches mid-run on any file starting with that row — the
Transaction, Stock and Position of the row are already durably committed, and
the `except`-branch rollback (import_service.py line 503) that a fatal
exception on a later row would trigger no longer removes them: rollback
returns to the last committed state, which already contains them. -/
theorem C3_per_row_commit_defeats_rollback :
    detect_format_and_map_columns headerRow = ("b3_area_investidor", importColumnMap) ∧
    (import_row_step importColumnMap true true c3InitState buyRow1).db.committed.txns =
      [wege3BuyTxn] ∧
    (Session.rollback
        (import_row_step importColumnMap true true c3InitState buyRow1).db).committed.txns =
      [wege3BuyTxn] ∧
    (Session.rollback
        (import_row_step importColumnMap true true c3InitState buyRow1).db).committed.portfolios =
      [{ stock_ticker := "WEGE3", quantity := 10, average_price := 5,
         first_buy_date := some 20240101, notes := none }] := by
  decide

def wege3Row : List String := ["WEGE3", "compra", "100", "35,50", "15/01/2024"]

/-- C4: with `create_missing_stocks` disabled, importing a row whose ticker
is unknown still creates the stock (placeholder name, recorded in the
created-tickers list) and applies the transaction with no row error —
`get_or_create_stock` never consults the flag and never returns `None`
(import_service.py lines 363-383), so the disabled-flag branch at lines
465-469 is unreachable.  With the flag enabled the behaviour is the
placeholder-creation the claim describes. -/
theorem C4_creates_stock_when_disabled :
    (import_csv emptySession [headerRow, wege3Row] true false).2.created_stocks =
      ["WEGE3"] ∧
    (import_csv emptySession [headerRow, wege3Row] true false).2.success_count = 1 ∧
    (import_csv emptySession [headerRow, wege3Row] true false).2.error_count = 0 ∧
    (import_csv emptySession [headerRow, wege3Row] true false).1.committed.stocks =
      [{ ticker := "WEGE3", name := "WEGE3 (Importado)", sector := none,
         is_active := true }] ∧
    (import_csv emptySession [headerRow, wege3Row] true true).2.created_stocks =
      ["WEGE3"] ∧
    (import_csv emptySession [headerRow, wege3Row] true true).2.error_count = 0 ∧
    (import_csv emptySession [headerRow, wege3Row] true true).1.committed.stocks =
      [{ ticker := "WEGE3", name := "WEGE3 (Importado)", sector := none,
         is_active := true }] := by
  decide

end StockTracker
